import Mathlib

/-!
Shallow embedding of `jmv` (a Miller-column JSON browser) — the navigation
state machine, panel derivation and rendering helpers of `src/main.rs`
(`RenderData` and free functions) and `src/state.rs` (`ProgramState`).

Conventions of the embedding:
* `serde_json::Value` is the inductive `Node`; the number payload is an `Int`
  (no claim depends on number formatting).
* `usize`/`u16` values are `Nat`; where a `u16` bound matters it appears as an
  explicit `< 2 ^ 16` hypothesis, and `u16` division/multiplication that cannot
  wrap is plain `Nat` arithmetic.
* Operations that can panic (an `unwrap`/`expect` on `None`, a `usize`
  subtraction that underflows with overflow checks on, a `try_into().unwrap()`
  out of `u16` range) return `Option`, `none` being the panic.
* A Rust `Vec` used as a stack (push/pop at the back) is a `List` with the
  most recently pushed element at the head.
-/

/-- `serde_json::Value`. -/
inductive Node where
  | null : Node
  | bool (b : Bool) : Node
  | num (n : Int) : Node
  | str (s : String) : Node
  | arr (elems : List Node) : Node
  | obj (entries : List (String × Node)) : Node

/-- Whether a node is a JSON object. -/
def Node.isObj : Node → Bool
  | .obj _ => true
  | _ => false

/-- `node_size` from `src/main.rs`: objects and arrays report their length,
`Null` reports 0, every other scalar reports 1. -/
def node_size : Node → Nat
  | .obj entries => entries.length
  | .arr elems => elems.length
  | .null => 0
  | _ => 1

/-- `get_value_size` from `src/state.rs`: objects and arrays report their
length, every scalar (including `Null`) reports 1. -/
def get_value_size : Node → Nat
  | .obj entries => entries.length
  | .arr elems => elems.length
  | _ => 1

/-- `get_value_key` from `src/state.rs`. For an object the `.expect` panics
when `index` is out of bounds: that is the `none` case. -/
def get_value_key (node : Node) (index : Nat) : Option String :=
  match node with
  | .obj entries => (entries.get? index).map (fun kv => kv.1)
  | .arr _ => some (toString index)
  | .bool v => some (toString v)
  | .str v => some v
  | .num v => some (toString v)
  | .null => some "null"

/-- `RenderData` from `src/main.rs`. `size` is `(columns, rows)`. -/
structure RenderData where
  curr_node : Node
  index : Nat
  old_indicies : List Nat
  path_str : List String
  path : List Node
  size : Nat × Nat

/-- `RenderData::new`. -/
def RenderData.new (value : Node) (size : Nat × Nat) : RenderData :=
  { curr_node := value, index := 0, size := size,
    path_str := [], old_indicies := [], path := [] }

/-- `RenderData::resize`. -/
def RenderData.resize (s : RenderData) (size : Nat × Nat) : RenderData :=
  { s with size := size }

/-- `RenderData::indexed_str`. For an object the `.unwrap` panics when
`self.index` is out of bounds: that is the `none` case. -/
def RenderData.indexed_str (s : RenderData) : Option String :=
  match s.curr_node with
  | .obj entries => (entries.get? s.index).map (fun kv => kv.1)
  | .arr _ => some (toString s.index)
  | .bool v => some (toString v)
  | .str v => some v
  | .num v => some (toString v)
  | .null => some "null"

/-- `RenderData::indexed_val`. -/
def RenderData.indexed_val (s : RenderData) : Option Node :=
  match s.curr_node with
  | .obj entries => (entries.get? s.index).map (fun kv => kv.2)
  | .arr elems => elems.get? s.index
  | _ => none

/-- `RenderData::prev_node`. -/
def RenderData.prev_node (s : RenderData) : Option Node :=
  s.path.head?

/-- `RenderData::prev_index`. -/
def RenderData.prev_index (s : RenderData) : Option Nat :=
  s.old_indicies.head?

/-- `RenderData::prev_str`. -/
def RenderData.prev_str (s : RenderData) : Option String :=
  s.path_str.head?

/-- `RenderData::push_path`: a no-op when `indexed_val` is `None`; otherwise
pushes the current node, its label and index, and moves into the child.
The call to `indexed_str` could in principle panic, hence the `Option`. -/
def RenderData.push_path (s : RenderData) : Option RenderData :=
  match s.indexed_val with
  | none => some s
  | some val =>
    match s.indexed_str with
    | none => none
    | some label =>
      some { s with
        path := s.curr_node :: s.path,
        path_str := label :: s.path_str,
        old_indicies := s.index :: s.old_indicies,
        index := 0,
        curr_node := val }

/-- `RenderData::pop_path`: a no-op when `path` is empty; otherwise pops the
saved index and node (`unwrap`, panicking if `old_indicies` is empty) and
drops the top of `path_str`. -/
def RenderData.pop_path (s : RenderData) : Option RenderData :=
  match s.path with
  | [] => some s
  | n :: ns =>
    match s.old_indicies with
    | [] => none
    | i :: is =>
      some { s with index := i, curr_node := n,
                    old_indicies := is, path := ns,
                    path_str := s.path_str.tail }

/-- `RenderData::inc_index`: guard `self.index < node_size(self.curr_node) - 1`
on `usize`. When `node_size` is 0 the subtraction `0 - 1` underflows
(a panic with overflow checks on); that is the `none` case. -/
def RenderData.inc_index (s : RenderData) : Option RenderData :=
  if node_size s.curr_node = 0 then none
  else if s.index < node_size s.curr_node - 1 then
    some { s with index := s.index + 1 }
  else
    some s

/-- `RenderData::dec_index`: `saturating_sub(1)`, i.e. truncated `Nat`
subtraction. -/
def RenderData.dec_index (s : RenderData) : RenderData :=
  { s with index := s.index - 1 }

/-- The five navigation operations of the spec, as dispatched by `main_loop`
(`j`/`k`/`l`/`h`) together with `RenderData::resize`. -/
inductive Op where
  | moveNext : Op
  | movePrev : Op
  | descend : Op
  | ascend : Op
  | resize (size : Nat × Nat) : Op

/-- One navigation transition; `none` is a panic of the underlying code. -/
def stepR (s : RenderData) : Op → Option RenderData
  | .moveNext => s.inc_index
  | .movePrev => some s.dec_index
  | .descend => s.push_path
  | .ascend => s.pop_path
  | .resize size => some (s.resize size)

/-- States reachable from the initial state `RenderData.new root size0` by
sequences of operations that complete without panicking. -/
inductive ReachableR (root : Node) (size0 : Nat × Nat) : RenderData → Prop where
  | init : ReachableR root size0 (RenderData.new root size0)
  | step {s s' : RenderData} {op : Op} :
      ReachableR root size0 s → stepR s op = some s' → ReachableR root size0 s'

/-- `Side` from `src/main.rs`. -/
inductive Side where
  | left : Side
  | middle : Side
  | right : Side

/-- `pad_string` from `src/main.rs`: `width - 4` on `usize` underflows when
`width < 4` (`none`); otherwise it formats `" {:width$} "`, padding the
string on the right with spaces to at least `width - 4` characters. -/
def pad_string (str : String) (width : Nat) : Option String :=
  if width < 4 then none
  else
    some (" " ++ str ++ String.mk (List.replicate ((width - 4) - str.length) ' ') ++ " ")

/-- The column at which `render_col` in `src/main.rs` draws each panel:
`cols / 3` is the panel width and the offsets are `0`, `cols / 3` and
`(cols / 3) * 2`. -/
def render_col_column (size : Nat × Nat) (side : Side) : Nat :=
  let cols := size.1 / 3
  match side with
  | .left => 0
  | .middle => cols
  | .right => cols * 2

/-- `render_highlight` from `src/main.rs`, reduced to the data it draws:
`some (some (column, row, text))` when a highlight is drawn, `some none` when
the side has no highlight, `none` when the function panics (the `try_into`
unwraps on the row, the unconditional `indexed_str` call, or `pad_string`). -/
def render_highlight (s : RenderData) (side : Side) :
    Option (Option (Nat × Nat × String)) :=
  let cols := s.size.1 / 3
  let column : Nat := match side with
    | .left => 0
    | .middle => cols
    | .right => cols * 2
  let rowRes : Option (Option Nat) := match side with
    | .left =>
      match s.prev_index with
      | some i => if i < 2 ^ 16 then some (some i) else none
      | none => some none
    | .middle => if s.index < 2 ^ 16 then some (some s.index) else none
    | .right => some none
  match rowRes with
  | none => none
  | some row? =>
    match s.indexed_str with
    | none => none
    | some tmp =>
      let str? : Option String := match side with
        | .left => s.prev_str
        | .middle => some tmp
        | .right => none
      match row?, str? with
      | some row, some str =>
        match pad_string str cols with
        | none => none
        | some out => some (some (column, row, out))
      | _, _ => some none

/-- Terminal events relevant to `main_loop`: resizes and key presses. -/
inductive Event where
  | resize (size : Nat × Nat) : Event
  | key (c : Char) : Event

/-- `flush_resize_events` from `src/main.rs`: drains the pending events,
remembering the size of the last resize among them, and returns
`(first_resize, last_resize)`. -/
def flush_resize_events (first_resize : Nat × Nat) (pending : List Event) :
    (Nat × Nat) × (Nat × Nat) :=
  (first_resize,
   pending.foldl
     (fun last e => match e with | .resize size => size | _ => last)
     first_resize)

/-- The event dispatch of `main_loop` in `src/main.rs` for one event
(`pending` are the events available to the resize-draining poll).
On a resize event the code binds `flush_resize_events`'s result to unused
variables and changes nothing; `RenderData::resize` is never called. -/
def handle_event (s : RenderData) (pending : List Event) : Event → Option RenderData
  | .resize size =>
    let _ := flush_resize_events size pending
    some s
  | .key c =>
    if c = 'q' then some s
    else if c = 'j' then s.inc_index
    else if c = 'k' then some s.dec_index
    else if c = 'l' then s.push_path
    else if c = 'h' then s.pop_path
    else some s

/-- `PanelSide` from `src/state.rs`. -/
inductive PanelSide where
  | left : PanelSide
  | middle : PanelSide
  | right : PanelSide

/-- `PanelState` from `src/state.rs`. -/
structure PanelState where
  value : Node
  text : String
  column : Nat
  width : Nat
  index : Nat

/-- `ProgramState` from `src/state.rs`. `size` is `(columns, rows)`. -/
structure ProgramState where
  size : Nat × Nat
  value : Node
  index : Nat
  paths : List String
  values : List Node
  indices : List Nat

/-- `ProgramState::new`. -/
def ProgramState.new (value : Node) (size : Nat × Nat) : ProgramState :=
  { size := size, value := value, index := 0,
    paths := [], values := [], indices := [] }

/-- `ProgramState::resize`. -/
def ProgramState.resize (s : ProgramState) (size : Nat × Nat) : ProgramState :=
  { s with size := size }

/-- `ProgramState::panel_state`: `some none` when a `?` bails out (no panel),
`none` when the code panics (`get_value_key`'s `expect`, or the
`index.try_into().unwrap()` out of `u16` range). -/
def ProgramState.panel_state (s : ProgramState) (side : PanelSide) :
    Option (Option PanelState) :=
  let width := s.size.1 / 3
  let column : Nat := match side with
    | .left => 0
    | .middle => width
    | .right => width * 2
  let index? : Option Nat := match side with
    | .left => s.indices.head?
    | .middle => some s.index
    | .right => some 0
  match index? with
  | none => some none
  | some index =>
    let value? : Option Node := match side with
      | .left => s.values.head?
      | .middle => some s.value
      | .right =>
        match s.value with
        | .obj entries => (entries.get? s.index).map (fun kv => kv.2)
        | .arr elems => elems.get? s.index
        | _ => none
    match value? with
    | none => some none
    | some value =>
      match get_value_key value index with
      | none => none
      | some text =>
        if index < 2 ^ 16 then
          some (some { value := value, text := text, column := column,
                       width := width, index := index })
        else none

/-- `ProgramState::push_path`: a no-op when the indexed child is absent;
otherwise pushes, moves into the child, and computes
`get_value_key(child, 0)` for `paths` — which panics (`none`) when the child
is an empty object. -/
def ProgramState.push_path (s : ProgramState) : Option ProgramState :=
  let value? : Option Node := match s.value with
    | .obj entries => (entries.get? s.index).map (fun kv => kv.2)
    | .arr elems => elems.get? s.index
    | _ => none
  match value? with
  | none => some s
  | some val =>
    match get_value_key val 0 with
    | none => none
    | some text =>
      some { s with
        indices := s.index :: s.indices,
        values := s.value :: s.values,
        index := 0,
        value := val,
        paths := text :: s.paths }

/-- `ProgramState::pop_path`. -/
def ProgramState.pop_path (s : ProgramState) : Option ProgramState :=
  match s.paths with
  | [] => some s
  | _ :: rest =>
    match s.indices, s.values with
    | i :: is, v :: vs =>
      some { s with index := i, value := v,
                    indices := is, values := vs, paths := rest }
    | _, _ => none

/-- `ProgramState::inc_index`: same guard as `RenderData::inc_index` but on
`get_value_size`; `get_value_size` is 0 exactly for empty arrays and empty
objects, where `0 - 1` underflows (`none`). -/
def ProgramState.inc_index (s : ProgramState) : Option ProgramState :=
  if get_value_size s.value = 0 then none
  else if s.index < get_value_size s.value - 1 then
    some { s with index := s.index + 1 }
  else
    some s

/-- `ProgramState::dec_index`. -/
def ProgramState.dec_index (s : ProgramState) : ProgramState :=
  { s with index := s.index - 1 }

/-! ## Helper lemmas -/

/-- A present indexed child means the index is within the current node's
child count. -/
theorem indexed_val_index_lt {s : RenderData} {val : Node}
    (h : s.indexed_val = some val) : s.index < node_size s.curr_node := by
  unfold RenderData.indexed_val at h
  cases hc : s.curr_node with
  | obj entries =>
    rw [hc] at h
    simp only [Option.map_eq_some'] at h
    obtain ⟨kv, hkv, -⟩ := h
    have := List.get?_eq_some.mp hkv
    simpa [node_size] using this.1
  | arr elems =>
    rw [hc] at h
    have := List.get?_eq_some.mp h
    simpa [node_size] using this.1
  | null => rw [hc] at h; cases h
  | bool b => rw [hc] at h; cases h
  | num n => rw [hc] at h; cases h
  | str v => rw [hc] at h; cases h

/-- Whenever the indexed child exists, the label `indexed_str` computes
without panicking. -/
theorem indexed_str_isSome_of_indexed_val {s : RenderData} {val : Node}
    (h : s.indexed_val = some val) : s.indexed_str.isSome := by
  unfold RenderData.indexed_val at h
  unfold RenderData.indexed_str
  cases hc : s.curr_node with
  | obj entries =>
    rw [hc] at h
    have h' : (entries.get? s.index).map (fun kv => kv.2) = some val := h
    simp only [Option.map_eq_some'] at h'
    obtain ⟨kv, hkv, -⟩ := h'
    show ((entries.get? s.index).map (fun kv => kv.1)).isSome = true
    rw [hkv]
    rfl
  | arr elems => simp
  | null => simp
  | bool b => simp
  | num n => simp
  | str v => simp

/-! ## Claim theorems -/

/-- C2: refuted on the code — at the reachable state whose current node is the
empty array (e.g. the root document is `[]`), the MoveNext operation is not
total: `inc_index` evaluates `node_size - 1 = 0 - 1` on `usize`, which
underflows instead of being absorbed by clamping or a no-op. -/
theorem moveNext_panics_on_empty_array :
    stepR (RenderData.new (.arr []) (80, 24)) .moveNext = none := rfl

/-- C5: refuted on the code — on a resize event `main_loop` drains the
following resize events and computes the last-observed size, but binds the
result of `flush_resize_events` to unused variables and never calls
`RenderData::resize`, so the stored terminal dimensions (and hence the panel
geometry) keep their previous value instead of the last-observed size. -/
theorem resize_event_discards_new_size :
    handle_event (RenderData.new .null (80, 24))
        [Event.resize (110, 40), Event.resize (120, 50)] (Event.resize (100, 30))
      = some (RenderData.new .null (80, 24)) ∧
    flush_resize_events (100, 30) [Event.resize (110, 40), Event.resize (120, 50)]
      = ((100, 30), (120, 50)) ∧
    (RenderData.new .null (80, 24)).size = (80, 24) :=
  ⟨rfl, rfl, rfl⟩

/-- C6 counterexample: padding a line to a panel width below 4 does subtract
past zero — `pad_string` with width 3 evaluates `3 - 4` on `usize`, an
underflow (`none`), so no clamping or suppression policy protects it. -/
theorem pad_string_underflows_below_four : pad_string "ab" 3 = none := rfl

/-- C6 (amended): `pad_string` implements no clamping or suppression policy;
it subtracts 4 from the width unconditionally, so it computes a padded string
(never subtracting past zero) exactly when the width is at least 4, and for
smaller widths the subtraction underflows. -/
theorem pad_string_total_iff_width_ge_four (str : String) (width : Nat) :
    (pad_string str width).isSome ↔ 4 ≤ width := by
  unfold pad_string
  by_cases h : width < 4
  · rw [if_pos h]
    exact iff_of_false (by simp) (by omega)
  · rw [if_neg h]
    exact iff_of_true rfl (by omega)

/-- C6 witness. -/
theorem pad_string_total_iff_width_ge_four_witness :
    (pad_string "x" 7).isSome ↔ 4 ≤ 7 :=
  pad_string_total_iff_width_ge_four "x" 7

/-- C7 counterexample: the child count of a `Bool` node is 1, not 0
(`node_size` in `src/main.rs`), and in `src/state.rs` even `Null` has
child count 1 (`get_value_size`). -/
theorem node_size_scalar_ne_zero :
    node_size (.bool true) ≠ 0 ∧ get_value_size .null ≠ 0 := by
  exact ⟨by decide, by decide⟩

/-- C7 (amended): `childCount` is the element count for an `Array` and the key
count for an `Object`; `node_size` (`src/main.rs`) returns 0 for `Null` but 1
for `Bool`/`Number`/`String`, and `get_value_size` (`src/state.rs`) returns 1
for every scalar, `Null` included. -/
theorem node_size_values (b : Bool) (n : Int) (s : String)
    (elems : List Node) (entries : List (String × Node)) :
    node_size (.arr elems) = elems.length ∧
    node_size (.obj entries) = entries.length ∧
    node_size .null = 0 ∧
    node_size (.bool b) = 1 ∧
    node_size (.num n) = 1 ∧
    node_size (.str s) = 1 ∧
    get_value_size (.arr elems) = elems.length ∧
    get_value_size (.obj entries) = entries.length ∧
    get_value_size .null = 1 ∧
    get_value_size (.bool b) = 1 ∧
    get_value_size (.num n) = 1 ∧
    get_value_size (.str s) = 1 :=
  ⟨rfl, rfl, rfl, rfl, rfl, rfl, rfl, rfl, rfl, rfl, rfl, rfl⟩

/-- C8: `resize` (both `RenderData::resize` in `src/main.rs` and
`ProgramState::resize` in `src/state.rs`) stores the new terminal dimensions
and leaves the current node, the selection index and the ancestor stacks
(saved nodes, saved indices, saved labels) unchanged. -/
theorem resize_changes_only_size (s : RenderData) (t : ProgramState)
    (size : Nat × Nat) :
    (s.resize size).size = size ∧
    (s.resize size).curr_node = s.curr_node ∧
    (s.resize size).index = s.index ∧
    (s.resize size).path = s.path ∧
    (s.resize size).old_indicies = s.old_indicies ∧
    (s.resize size).path_str = s.path_str ∧
    (t.resize size).size = size ∧
    (t.resize size).value = t.value ∧
    (t.resize size).index = t.index ∧
    (t.resize size).values = t.values ∧
    (t.resize size).indices = t.indices ∧
    (t.resize size).paths = t.paths :=
  ⟨rfl, rfl, rfl, rfl, rfl, rfl, rfl, rfl, rfl, rfl, rfl, rfl⟩

/-- C1: MoveNext clamps as specified whenever the current node has at least
one child and the index is in bounds, but the claimed no-op for
`childCount == 0` is refuted: on a zero-child node (empty array, empty object,
or `Null` in `src/main.rs`) `inc_index` underflows `0 - 1` on `usize` instead
of doing nothing (both `RenderData::inc_index` and `ProgramState::inc_index`). -/
theorem inc_index_clamps_except_zero_children :
    (∀ s : RenderData, 1 ≤ node_size s.curr_node →
        s.index ≤ node_size s.curr_node - 1 →
        s.inc_index =
          some { s with index := min (s.index + 1) (node_size s.curr_node - 1) }) ∧
    RenderData.inc_index (RenderData.new (.arr []) (80, 24)) = none ∧
    ProgramState.inc_index (ProgramState.new (.arr []) (80, 24)) = none := by
  refine ⟨?_, rfl, rfl⟩
  intro s h1 h2
  unfold RenderData.inc_index
  rw [if_neg (by omega : ¬ node_size s.curr_node = 0)]
  by_cases hlt : s.index < node_size s.curr_node - 1
  · rw [if_pos hlt]
    have hmin : min (s.index + 1) (node_size s.curr_node - 1) = s.index + 1 := by
      omega
    rw [hmin]
  · rw [if_neg hlt]
    have hmin : min (s.index + 1) (node_size s.curr_node - 1) = s.index := by
      omega
    rw [hmin]

/-- C1 witness. -/
theorem inc_index_clamps_except_zero_children_witness :
    RenderData.inc_index (RenderData.new (.arr [.null, .null]) (80, 24)) =
      some { RenderData.new (.arr [.null, .null]) (80, 24) with
             index := min ((RenderData.new (.arr [.null, .null]) (80, 24)).index + 1)
               (node_size (RenderData.new (.arr [.null, .null]) (80, 24)).curr_node - 1) } :=
  inc_index_clamps_except_zero_children.1 _ (by decide) (by decide)

/-- C4 counterexample: in `src/state.rs` the claim fails. For document
`[{}]` at index 0 the indexed child exists (`childAt` yields the empty
object), yet `ProgramState::push_path` panics in `get_value_key(child, 0)`
(the `.expect` on an empty map, evaluated after moving into the child), so
Descend aborts and Descend-then-Ascend does not restore the prior triple. -/
theorem descend_ascend_roundtrip_fails_in_state_rs :
    [Node.obj []].get? 0 = some (.obj []) ∧
    (ProgramState.new (.arr [.obj []]) (80, 24)).push_path = none ∧
    (ProgramState.new (.arr [.obj []]) (80, 24)).push_path.bind
        ProgramState.pop_path
      ≠ some (ProgramState.new (.arr [.obj []]) (80, 24)) :=
  ⟨rfl, rfl, fun h => Option.noConfusion h⟩

/-- C4 (amended): whenever Descend actually moves and completes without
panicking, Descend immediately followed by Ascend restores the exact prior
state — current node, selection index and the whole ancestor stack included.
For `RenderData` (`src/main.rs`) the existence of the indexed child suffices;
for `ProgramState` (`src/state.rs`) the label computation
`get_value_key(child, 0)` must additionally succeed (it panics when the
child is an empty object). -/
theorem descend_then_ascend_roundtrip :
    (∀ (s : RenderData) (val : Node), s.indexed_val = some val →
        s.push_path.bind RenderData.pop_path = some s) ∧
    (∀ (s : ProgramState) (val : Node) (text : String),
        (match s.value with
          | .obj entries => (entries.get? s.index).map (fun kv : String × Node => kv.2)
          | .arr elems => elems.get? s.index
          | _ => none) = some val →
        get_value_key val 0 = some text →
        s.push_path.bind ProgramState.pop_path = some s) := by
  constructor
  · intro s val h
    have hstr := indexed_str_isSome_of_indexed_val h
    obtain ⟨label, hlabel⟩ := Option.isSome_iff_exists.mp hstr
    unfold RenderData.push_path
    rw [h, hlabel]
    rfl
  · intro s val text hval htext
    show (match (match s.value with
        | .obj entries => (entries.get? s.index).map (fun kv : String × Node => kv.2)
        | .arr elems => elems.get? s.index
        | _ => none) with
      | none => some s
      | some val =>
        match get_value_key val 0 with
        | none => none
        | some text =>
          some { s with
            indices := s.index :: s.indices,
            values := s.value :: s.values,
            index := 0,
            value := val,
            paths := text :: s.paths }).bind ProgramState.pop_path = some s
    rw [hval]
    show (match get_value_key val 0 with
      | none => none
      | some text =>
        some { s with
          indices := s.index :: s.indices,
          values := s.value :: s.values,
          index := 0,
          value := val,
          paths := text :: s.paths }).bind ProgramState.pop_path = some s
    rw [htext]
    rfl

/-- C4 witness. -/
theorem descend_then_ascend_roundtrip_witness :
    (RenderData.new (.arr [.null]) (80, 24)).push_path.bind RenderData.pop_path
      = some (RenderData.new (.arr [.null]) (80, 24)) ∧
    (ProgramState.new (.arr [.null]) (80, 24)).push_path.bind
        ProgramState.pop_path
      = some (ProgramState.new (.arr [.null]) (80, 24)) :=
  ⟨descend_then_ascend_roundtrip.1 _ .null rfl,
   descend_then_ascend_roundtrip.2 _ .null "null" rfl rfl⟩

/-- `get?` succeeds exactly on in-bounds indices. -/
theorem get?_isSome_iff_lt {α : Type} (l : List α) (n : Nat) :
    (l.get? n).isSome ↔ n < l.length := by
  rw [List.get?_eq_getElem?]
  constructor
  · intro h
    by_contra hn
    rw [List.getElem?_eq_none (Nat.le_of_not_lt hn)] at h
    simp at h
  · intro h
    rw [List.getElem?_eq_getElem h]
    rfl

/-- `Option.map` preserves `isSome`. -/
theorem map_isSome {α β : Type} (f : α → β) (o : Option α) :
    (o.map f).isSome = o.isSome := by
  cases o <;> rfl

/-- C10: the label derivations are total exactly under the object-index
precondition: for an object node `indexed_str` (`src/main.rs`) and
`get_value_key` (`src/state.rs`) succeed iff the index is below the key
count, and they succeed on every index for non-object nodes; the panic is
reachable from the public interface because `render_highlight` derives the
middle-panel label unconditionally, so with an empty-object document root
(index 0) the very first frame panics. -/
theorem indexed_str_object_totality :
    (∀ (s : RenderData) (entries : List (String × Node)),
        s.curr_node = .obj entries →
        (s.indexed_str.isSome ↔ s.index < entries.length)) ∧
    (∀ (entries : List (String × Node)) (i : Nat),
        (get_value_key (.obj entries) i).isSome ↔ i < entries.length) ∧
    (∀ s : RenderData, s.curr_node.isObj = false → s.indexed_str.isSome) ∧
    (∀ (node : Node) (i : Nat), node.isObj = false →
        (get_value_key node i).isSome) ∧
    render_highlight (RenderData.new (.obj []) (80, 24)) .middle = none := by
  refine ⟨?_, ?_, ?_, ?_, rfl⟩
  · intro s entries hc
    unfold RenderData.indexed_str
    rw [hc]
    show ((entries.get? s.index).map (fun kv => kv.1)).isSome ↔ s.index < entries.length
    rw [map_isSome, get?_isSome_iff_lt]
  · intro entries i
    unfold get_value_key
    show ((entries.get? i).map (fun kv => kv.1)).isSome ↔ i < entries.length
    rw [map_isSome, get?_isSome_iff_lt]
  · intro s h
    unfold RenderData.indexed_str
    cases hc : s.curr_node with
    | obj entries => rw [hc] at h; simp [Node.isObj] at h
    | null => rfl
    | bool b => rfl
    | num n => rfl
    | str v => rfl
    | arr elems => rfl
  · intro node i h
    cases node with
    | obj entries => simp [Node.isObj] at h
    | null => rfl
    | bool b => rfl
    | num n => rfl
    | str v => rfl
    | arr elems => rfl

/-- C10 witness. -/
theorem indexed_str_object_totality_witness :
    (RenderData.new (.arr []) (80, 24)).indexed_str.isSome ∧
    ((get_value_key (.obj []) 0).isSome ↔ 0 < ([] : List (String × Node)).length) :=
  ⟨indexed_str_object_totality.2.2.1 _ rfl,
   indexed_str_object_totality.2.1 [] 0⟩

/-- C9: every panel the code derives has width `floor(N/3)` for terminal
width `N`; the left, middle and right column offsets are `0`, `floor(N/3)`
and `2 * floor(N/3)` (in both `ProgramState::panel_state` and `render_col`);
three panel widths never exceed `N`; and for `N < 2^16` the `u16` product
`width * 2` cannot wrap, so the `Nat` model is faithful. -/
theorem panel_geometry_thirds :
    (∀ (s : ProgramState) (side : PanelSide) (p : PanelState),
        s.size.1 < 2 ^ 16 →
        s.panel_state side = some (some p) →
        p.width = s.size.1 / 3 ∧
        p.column = (match side with
          | .left => 0
          | .middle => s.size.1 / 3
          | .right => 2 * (s.size.1 / 3)) ∧
        3 * p.width ≤ s.size.1 ∧
        2 * (s.size.1 / 3) < 2 ^ 16) ∧
    (∀ size : Nat × Nat,
        render_col_column size .left = 0 ∧
        render_col_column size .middle = size.1 / 3 ∧
        render_col_column size .right = 2 * (size.1 / 3) ∧
        3 * (size.1 / 3) ≤ size.1) := by
  constructor
  · intro s side p hsize hp
    cases side with
    | left =>
      have hp' : (match s.indices.head? with
        | none => (some none : Option (Option PanelState))
        | some index =>
          match s.values.head? with
          | none => some none
          | some value =>
            match get_value_key value index with
            | none => none
            | some text =>
              if index < 2 ^ 16 then
                some (some { value := value, text := text, column := 0,
                             width := s.size.1 / 3, index := index })
              else none) = some (some p) := hp
      clear hp
      split at hp'
      · simp at hp'
      · split at hp'
        · simp at hp'
        · split at hp'
          · simp at hp'
          · split at hp'
            · simp only [Option.some.injEq] at hp'
              subst hp'
              exact ⟨rfl, rfl,
                by show 3 * (s.size.1 / 3) ≤ s.size.1; omega, by omega⟩
            · simp at hp'
    | middle =>
      have hp' : (match get_value_key s.value s.index with
        | none => (none : Option (Option PanelState))
        | some text =>
          if s.index < 2 ^ 16 then
            some (some { value := s.value, text := text, column := s.size.1 / 3,
                         width := s.size.1 / 3, index := s.index })
          else none) = some (some p) := hp
      clear hp
      split at hp'
      · simp at hp'
      · split at hp'
        · simp only [Option.some.injEq] at hp'
          subst hp'
          exact ⟨rfl, rfl,
            by show 3 * (s.size.1 / 3) ≤ s.size.1; omega, by omega⟩
        · simp at hp'
    | right =>
      have hp' : (match (match s.value with
          | .obj entries => (entries.get? s.index).map (fun kv => kv.2)
          | .arr elems => elems.get? s.index
          | _ => none) with
        | none => (some none : Option (Option PanelState))
        | some value =>
          match get_value_key value 0 with
          | none => none
          | some text =>
            some (some { value := value, text := text, column := s.size.1 / 3 * 2,
                         width := s.size.1 / 3, index := 0 })) = some (some p) := hp
      clear hp
      split at hp'
      · simp at hp'
      · split at hp'
        · simp at hp'
        · simp only [Option.some.injEq] at hp'
          subst hp'
          exact ⟨rfl,
            by show s.size.1 / 3 * 2 = 2 * (s.size.1 / 3); omega,
            by show 3 * (s.size.1 / 3) ≤ s.size.1; omega, by omega⟩
  · intro size
    refine ⟨rfl, rfl, ?_, by omega⟩
    show size.1 / 3 * 2 = 2 * (size.1 / 3)
    omega

/-- C9 witness. -/
theorem panel_geometry_thirds_witness :
    ((⟨.null, "null", 26, 26, 0⟩ : PanelState).width
        = (ProgramState.new .null (80, 24)).size.1 / 3) ∧
    2 * ((ProgramState.new .null (80, 24)).size.1 / 3) < 2 ^ 16 :=
  have h := panel_geometry_thirds.1 (ProgramState.new .null (80, 24)) .middle
    ⟨.null, "null", 26, 26, 0⟩ (by decide) rfl
  ⟨h.1, h.2.2.2⟩

/-- The inductive invariant of the navigation machine: the selection index is
within the clamped bound and every saved `(node, index)` pair on the ancestor
stacks was a valid child position of its node. -/
def InvR (s : RenderData) : Prop :=
  s.index ≤ node_size s.curr_node - 1 ∧
  List.Forall₂ (fun n i => i < node_size n) s.path s.old_indicies

/-- Every non-panicking transition preserves the invariant. -/
theorem invR_step {s s' : RenderData} {op : Op}
    (hs : stepR s op = some s') (hi : InvR s) : InvR s' := by
  obtain ⟨h1, h2⟩ := hi
  cases op with
  | moveNext =>
    replace hs : s.inc_index = some s' := hs
    unfold RenderData.inc_index at hs
    by_cases h0 : node_size s.curr_node = 0
    · rw [if_pos h0] at hs
      cases hs
    · rw [if_neg h0] at hs
      by_cases hlt : s.index < node_size s.curr_node - 1
      · rw [if_pos hlt] at hs
        cases hs
        refine ⟨?_, h2⟩
        show s.index + 1 ≤ node_size s.curr_node - 1
        omega
      · rw [if_neg hlt] at hs
        cases hs
        exact ⟨h1, h2⟩
  | movePrev =>
    replace hs : some s.dec_index = some s' := hs
    cases hs
    refine ⟨?_, h2⟩
    show s.index - 1 ≤ node_size s.curr_node - 1
    omega
  | descend =>
    replace hs : s.push_path = some s' := hs
    unfold RenderData.push_path at hs
    cases hval : s.indexed_val with
    | none =>
      rw [hval] at hs
      cases hs
      exact ⟨h1, h2⟩
    | some val =>
      rw [hval] at hs
      cases hstr : s.indexed_str with
      | none => rw [hstr] at hs; cases hs
      | some label =>
        rw [hstr] at hs
        cases hs
        refine ⟨Nat.zero_le _, ?_⟩
        show List.Forall₂ (fun n i => i < node_size n)
          (s.curr_node :: s.path) (s.index :: s.old_indicies)
        exact List.Forall₂.cons (indexed_val_index_lt hval) h2
  | ascend =>
    replace hs : s.pop_path = some s' := hs
    unfold RenderData.pop_path at hs
    cases hpath : s.path with
    | nil =>
      rw [hpath] at hs
      cases hs
      exact ⟨h1, h2⟩
    | cons n ns =>
      rw [hpath] at hs
      cases hold : s.old_indicies with
      | nil => rw [hold] at hs; cases hs
      | cons i is =>
        rw [hold] at hs
        cases hs
        rw [hpath, hold] at h2
        cases h2 with
        | cons hhead htail =>
          refine ⟨?_, htail⟩
          show i ≤ node_size n - 1
          omega
  | resize size =>
    replace hs : some (s.resize size) = some s' := hs
    cases hs
    exact ⟨h1, h2⟩

/-- Every reachable state satisfies the invariant. -/
theorem invR_reachable {root : Node} {size0 : Nat × Nat} {s : RenderData}
    (h : ReachableR root size0 s) : InvR s := by
  induction h with
  | init => exact ⟨Nat.zero_le _, List.Forall₂.nil⟩
  | step _ hst ih => exact invR_step hst ih

/-- C3: in every state reachable from the initial state (root node, index 0,
empty stack) by sequences of MoveNext, MovePrev, Descend, Ascend and Resize
that complete without panicking, the selection index satisfies
`0 ≤ currentIndex ≤ max(0, childCount(currentNode) - 1)`, and a node with
zero children forces index 0. -/
theorem reachable_index_invariant (root : Node) (size0 : Nat × Nat)
    (s : RenderData) (h : ReachableR root size0 s) :
    s.index ≤ max (node_size s.curr_node - 1) 0 ∧
    (node_size s.curr_node = 0 → s.index = 0) := by
  have hi := invR_reachable h
  exact ⟨le_trans hi.1 (le_max_left _ _), fun h0 => by have := hi.1; omega⟩

/-- C3 witness. -/
theorem reachable_index_invariant_witness :
    (RenderData.new .null (80, 24)).index
        ≤ max (node_size (RenderData.new .null (80, 24)).curr_node - 1) 0 ∧
    (node_size (RenderData.new .null (80, 24)).curr_node = 0 →
        (RenderData.new .null (80, 24)).index = 0) :=
  reachable_index_invariant .null (80, 24) _ ReachableR.init
